import Mathlib

/-!
Shallow embedding of the resource allocation and optimization engine of the
inventory-management repository (`src/src/optimization/resource_allocator.py`,
class `ResourceAllocator`), together with theorems settling the spec claims
about it.

Conventions of the embedding:
* Python dicts keyed by integer ids become association lists
  `List (Nat × _)`; Python dict membership/lookup becomes key membership in
  `List.map Prod.fst` / `List.lookup`.
* Integer decision variables of the LP become `Int`-valued assignment
  functions; binary variables become `Bool`-valued assignment functions.
  A solver call is modelled by a `SolveOutcome` value: either `optimal` with
  the assignment the solver returned, or `notOptimal` (infeasible /
  time-limit / unbounded).  The code trusts the solver's status flag, so
  feasibility of a returned assignment is an explicit hypothesis where a
  theorem needs it.
* Monetary amounts (`unit_cost`, objective values) are `ℚ`.
* Database writes are modelled by explicit lists of row records carried in
  the result of each modelled entry point.
-/

namespace ResourceAllocator

/-- One value of the `inventory_data` dict built by `_get_inventory_data`
(lines 389-404): the snapshot of an active `InventoryItem` row.
(`part_number` is carried along by the code but never read by the
optimization model; it is omitted here.) -/
structure InventoryFact where
  current_stock : Int
  unit_cost : ℚ
  reorder_point : Int
  deriving Repr, DecidableEq

/-- One value of the `production_data` dict built by
`_get_production_requirements` (lines 406-433): a line's capacity together
with its estimated `required_items` map (`item_id -> minimum quantity`). -/
structure LineRequirement where
  capacity_per_hour : Int
  required_items : List (Nat × Int)
  deriving Repr, DecidableEq

/-- `inventory_data`: `item_id -> InventoryFact`. -/
abbrev InventoryData := List (Nat × InventoryFact)

/-- `production_data`: `line_id -> LineRequirement`. -/
abbrev ProductionData := List (Nat × LineRequirement)

/-- An assignment of the integer decision variables
`allocation_vars[item_id][line_id]` (lines 84-92). -/
abbrev Alloc := Nat → Nat → Int

/-- Lower bounds of the decision variables: every `LpVariable` is declared
with `lowBound=0` (line 91), so any solver solution is non-negative on the
declared item × line grid. -/
def allocNonneg (inv : InventoryData) (prod : ProductionData) (a : Alloc) : Prop :=
  ∀ ip ∈ inv, ∀ lp ∈ prod, 0 ≤ a ip.1 lp.1

/-- `lpSum([allocation_vars[item_id][line_id] for line_id in production_data])`
(lines 111-114). -/
def totalAllocated (prod : ProductionData) (a : Alloc) (item : Nat) : Int :=
  (prod.map (fun lp => a item lp.1)).sum

/-- Constraint family 1 (lines 109-115): for each item, the total allocation
across lines is at most the item's `current_stock`. -/
def stockOk (inv : InventoryData) (prod : ProductionData) (a : Alloc) : Prop :=
  ∀ ip ∈ inv, totalAllocated prod a ip.1 ≤ ip.2.current_stock

/-- Constraint family 2 (lines 117-122): for each line and each required item,
the allocation meets the minimum — but only when
`item_id in allocation_vars`, i.e. only when the item is one of the active
inventory items (the guard on line 121). -/
def minReqOk (inv : InventoryData) (prod : ProductionData) (a : Alloc) : Prop :=
  ∀ lp ∈ prod, ∀ rq ∈ lp.2.required_items,
    rq.1 ∈ inv.map Prod.fst → rq.2 ≤ a rq.1 lp.1

/-- The full constraint set of the `Inventory_Allocation` LP. -/
def feasibleAlloc (inv : InventoryData) (prod : ProductionData) (a : Alloc) : Prop :=
  allocNonneg inv prod a ∧ stockOk inv prod a ∧ minReqOk inv prod a

instance (inv : InventoryData) (prod : ProductionData) (a : Alloc) :
    Decidable (feasibleAlloc inv prod a) := by
  unfold feasibleAlloc allocNonneg stockOk minReqOk
  infer_instance

/-- The objective of the `Inventory_Allocation` LP (lines 94-105):
`Σ (unit_cost · x + 0.1 · unit_cost · x)` over the item × line grid. -/
def allocObjective (inv : InventoryData) (prod : ProductionData) (a : Alloc) : ℚ :=
  (inv.map (fun ip =>
    (prod.map (fun lp =>
      ip.2.unit_cost * (a ip.1 lp.1 : ℚ) +
        (1 / 10) * ip.2.unit_cost * (a ip.1 lp.1 : ℚ))).sum)).sum

/-- An assignment the solver may legitimately report as `LpStatusOptimal`:
feasible, and of minimal objective among feasible assignments. -/
def isOptimalAlloc (inv : InventoryData) (prod : ProductionData) (a : Alloc) : Prop :=
  feasibleAlloc inv prod a ∧
    ∀ b, feasibleAlloc inv prod b → allocObjective inv prod a ≤ allocObjective inv prod b

/-- `_extract_allocation_results` (lines 514-529): one entry per item of
`allocation_vars`, keeping, per line, the allocated quantity when it is
strictly positive.  (The code additionally copies `item_info`/`line_info`
snapshots into each entry; those are verbatim copies of the inputs and are
omitted.) -/
def extractAllocationResults (inv : InventoryData) (prod : ProductionData)
    (a : Alloc) : List (Nat × List (Nat × Int)) :=
  inv.map (fun ip =>
    (ip.1, prod.filterMap (fun lp =>
      if 0 < a ip.1 lp.1 then some (lp.1, a ip.1 lp.1) else none)))

/-- Dict-style read of an extracted allocation structure:
`results[item][line]['allocated_quantity']`, with 0 for an absent key. -/
def reportedQty (results : List (Nat × List (Nat × Int))) (item line : Nat) : Int :=
  (((results.lookup item).getD []).lookup line).getD 0

/-- Outcome of `prob.solve(PULP_CBC_CMD(...))` followed by the
`prob.status == LpStatusOptimal` test: either the solver reports an optimal
solution (carrying the assignment of the decision variables), or it reports
any non-optimal status (infeasible, time-limit-exceeded, unbounded). -/
inductive SolveOutcome (σ : Type) where
  | optimal (sol : σ)
  | notOptimal
  deriving Repr, DecidableEq

/-- The dict returned by `optimize_inventory_allocation`
(lines 144-149 on success, 79 and 152 on failure; `execution_time` is wall
clock and not modelled). -/
inductive InvResult where
  | success (objective : ℚ) (allocations : List (Nat × List (Nat × Int)))
  | failed (reason : String)
  deriving Repr, DecidableEq

/-- `result['status'] == 'success'`. -/
def InvResult.isSuccess : InvResult → Bool
  | .success _ _ => true
  | .failed _ => false

/-- The allocations payload of a success result (empty for a failure). -/
def InvResult.allocationsOf : InvResult → List (Nat × List (Nat × Int))
  | .success _ al => al
  | .failed _ => []

/-- An `OptimizationResult` row as written by `_save_optimization_result`
(lines 553-574); only the fields the claims mention are kept.  Note the row
is always written with `status='COMPLETED'` (line 565). -/
structure RunRecord where
  optimization_type : String
  status : String
  deriving Repr, DecidableEq

/-- A `ResourceAllocation` row as written by `_apply_inventory_allocations`
(lines 584-591) or `_apply_production_schedule` (lines 610-617). -/
structure AllocRow where
  production_line_id : Nat
  resource_type : String
  resource_id : String
  allocated_quantity : Int
  status : String
  deriving Repr, DecidableEq

/-- The `ResourceAllocation` rows built by the loop of
`_apply_inventory_allocations` (lines 579-593): one `MATERIAL` row per
(item, line) entry of the extracted allocation results. -/
def allocationRows (results : List (Nat × List (Nat × Int))) : List AllocRow :=
  results.flatMap (fun ir =>
    ir.2.map (fun lr =>
      { production_line_id := lr.1
        resource_type := "MATERIAL"
        resource_id := toString ir.1
        allocated_quantity := lr.2
        status := "PLANNED" }))

/-- Everything observable about one call of `optimize_inventory_allocation`:
the returned dict, the `OptimizationResult` rows written, the
`ResourceAllocation` rows written, and whether `prob.solve` was reached. -/
structure InvRunOutput where
  result : InvResult
  savedRuns : List RunRecord
  savedAllocations : List AllocRow
  solverInvoked : Bool
  deriving Repr, DecidableEq

/-- `optimize_inventory_allocation` (lines 66-156), as a function of the two
data snapshots and the solver outcome.  Control flow of the source:
empty data short-circuits to `insufficient_data` before the model is built
(lines 77-79); an optimal solve extracts results, saves one
`COMPLETED` run row and the allocation rows, and returns success
(lines 128-149); any other solver status returns `no_optimal_solution`
with nothing written (lines 150-152). -/
def optimizeInventoryAllocation (inv : InventoryData) (prod : ProductionData)
    (solve : SolveOutcome Alloc) : InvRunOutput :=
  if inv.isEmpty || prod.isEmpty then
    { result := .failed "insufficient_data"
      savedRuns := []
      savedAllocations := []
      solverInvoked := false }
  else
    match solve with
    | .optimal a =>
        let results := extractAllocationResults inv prod a
        { result := .success (allocObjective inv prod a) results
          savedRuns := [{ optimization_type := "INVENTORY", status := "COMPLETED" }]
          savedAllocations := allocationRows results
          solverInvoked := true }
    | .notOptimal =>
        { result := .failed "no_optimal_solution"
          savedRuns := []
          savedAllocations := []
          solverInvoked := true }

/-! ### Production schedule model (`optimize_production_schedule`, lines 158-269) -/

/-- One value of the `jobs_data` dict (`_get_pending_jobs_data`,
lines 452-461); `due_date` is never used by the model and is omitted. -/
structure JobFact where
  quantity : Int
  priority : Int
  deriving Repr, DecidableEq

/-- One value of the `lines_data` dict (`_get_production_lines_data`,
lines 435-450); `efficiency_target` is unused by the schedule model. -/
structure LineFact where
  capacity_per_hour : Int
  setup_cost : Int
  deriving Repr, DecidableEq

abbrev JobsData := List (Nat × JobFact)
abbrev LinesData := List (Nat × LineFact)

/-- An assignment of the binary decision variables
`schedule_vars[job_id][line_id][slot]` (lines 177-188). -/
abbrev Sched := Nat → Nat → Nat → Bool

/-- `time_slots = list(range(24))` (line 178). -/
def timeSlots : List Nat := List.range 24

/-- The value of a binary variable under a `Sched` assignment. -/
def boolVal (b : Bool) : Int := if b then 1 else 0

/-- Constraint family 1 (lines 209-215): each job is assigned to exactly one
(line, slot) pair — `lpSum(...) == 1`, an equality. -/
def jobAssignedOnce (jobs : JobsData) (lines : LinesData) (x : Sched) : Prop :=
  ∀ jp ∈ jobs,
    ((lines.flatMap (fun lp => timeSlots.map (fun s => boolVal (x jp.1 lp.1 s)))).sum : Int) = 1

/-- Constraint family 2 (lines 218-224): each (line, slot) hosts at most one
job. -/
def slotAtMostOneJob (jobs : JobsData) (lines : LinesData) (x : Sched) : Prop :=
  ∀ lp ∈ lines, ∀ s ∈ timeSlots,
    ((jobs.map (fun jp => boolVal (x jp.1 lp.1 s))).sum : Int) ≤ 1

/-- Constraint family 3 (lines 227-235): per (line, slot), the total quantity
of assigned jobs is at most the line's `capacity_per_hour`. -/
def slotCapacityOk (jobs : JobsData) (lines : LinesData) (x : Sched) : Prop :=
  ∀ lp ∈ lines, ∀ s ∈ timeSlots,
    ((jobs.map (fun jp => jp.2.quantity * boolVal (x jp.1 lp.1 s))).sum : Int)
      ≤ lp.2.capacity_per_hour

/-- The full constraint set of the `Production_Schedule` MIP. -/
def feasibleSched (jobs : JobsData) (lines : LinesData) (x : Sched) : Prop :=
  jobAssignedOnce jobs lines x ∧ slotAtMostOneJob jobs lines x ∧
    slotCapacityOk jobs lines x

instance (jobs : JobsData) (lines : LinesData) (x : Sched) :
    Decidable (feasibleSched jobs lines x) := by
  unfold feasibleSched jobAssignedOnce slotAtMostOneJob slotCapacityOk
  infer_instance

/-- The objective of the schedule MIP (lines 191-205):
`Σ (slot·(2-priority) + setup_cost) · x`. -/
def schedObjective (jobs : JobsData) (lines : LinesData) (x : Sched) : Int :=
  (jobs.map (fun jp =>
    (lines.map (fun lp =>
      (timeSlots.map (fun s : Nat =>
        ((s : Int) * (2 - jp.2.priority) + lp.2.setup_cost) *
          boolVal (x jp.1 lp.1 s))).sum)).sum)).sum

/-- The inner `for slot in ...` loop of `_extract_schedule_results`
(lines 537-549): the first slot of a given line carrying an assignment
(the `break` on line 549 stops the slot loop after a hit). -/
def firstHitSlot (x : Sched) (j l : Nat) : Option Nat :=
  timeSlots.find? (fun s => x j l s)

/-- The `for line_id in ...` loop of `_extract_schedule_results` for one job:
`results[job_id]` is overwritten on every line that has a hit (the `break`
only leaves the slot loop), so the final value is the last line with a hit,
paired with its first hit slot; `none` when no line has a hit. -/
def extractJobAssignment (lines : LinesData) (x : Sched) (j : Nat) :
    Option (Nat × Nat) :=
  lines.foldl (fun acc lp =>
    match firstHitSlot x j lp.1 with
    | some s => some (lp.1, s)
    | none => acc) none

/-- `_extract_schedule_results` (lines 531-551): entries
`(job_id, assigned_line, assigned_slot)`; a job with no assignment gets no
entry.  (`job_info`/`line_info`/`scheduled_time` are copies of the inputs
and a wall-clock timestamp, omitted here.) -/
def extractScheduleResults (jobs : JobsData) (lines : LinesData) (x : Sched) :
    List (Nat × Nat × Nat) :=
  jobs.filterMap (fun jp =>
    (extractJobAssignment lines x jp.1).map (fun pr => (jp.1, pr.1, pr.2)))

/-- The (line, slot) pairs of the declared variable grid carrying an
assignment for job `j`. -/
def assignedPairs (lines : LinesData) (x : Sched) (j : Nat) : List (Nat × Nat) :=
  lines.flatMap (fun lp =>
    (timeSlots.filter (fun s => x j lp.1 s)).map (fun s => (lp.1, s)))

/-- The dict returned by `optimize_production_schedule` (lines 257-262 on
success, 171 and 265 on failure). -/
inductive SchedResult where
  | success (objective : Int) (schedule : List (Nat × Nat × Nat))
  | failed (reason : String)
  deriving Repr, DecidableEq

/-- `result['status'] == 'success'` for a schedule call. -/
def SchedResult.isSuccess : SchedResult → Bool
  | .success _ _ => true
  | .failed _ => false

/-- The schedule payload of a success result (empty for a failure). -/
def SchedResult.scheduleOf : SchedResult → List (Nat × Nat × Nat)
  | .success _ sc => sc
  | .failed _ => []

/-- `ResourceAllocation` rows built by `_apply_production_schedule`
(lines 605-619): one `LABOR` row per scheduled job. -/
def scheduleRows (results : List (Nat × Nat × Nat)) : List AllocRow :=
  results.map (fun r =>
    { production_line_id := r.2.1
      resource_type := "LABOR"
      resource_id := "job_" ++ toString r.1
      allocated_quantity := 1
      status := "PLANNED" })

/-- Everything observable about one call of `optimize_production_schedule`. -/
structure SchedRunOutput where
  result : SchedResult
  savedRuns : List RunRecord
  savedAllocations : List AllocRow
  solverInvoked : Bool
  deriving Repr, DecidableEq

/-- `optimize_production_schedule` (lines 158-269), same control flow as the
inventory pipeline: empty data short-circuits (lines 169-171); an optimal
solve extracts, saves one `COMPLETED` run row (type `PRODUCTION`) plus the
schedule rows, and returns success (lines 241-262); any other solver status
returns failure with nothing written (lines 263-265). -/
def optimizeProductionSchedule (lines : LinesData) (jobs : JobsData)
    (solve : SolveOutcome Sched) : SchedRunOutput :=
  if lines.isEmpty || jobs.isEmpty then
    { result := .failed "insufficient_data"
      savedRuns := []
      savedAllocations := []
      solverInvoked := false }
  else
    match solve with
    | .optimal x =>
        let results := extractScheduleResults jobs lines x
        { result := .success (schedObjective jobs lines x) results
          savedRuns := [{ optimization_type := "PRODUCTION", status := "COMPLETED" }]
          savedAllocations := scheduleRows results
          solverInvoked := true }
    | .notOptimal =>
        { result := .failed "no_optimal_solution"
          savedRuns := []
          savedAllocations := []
          solverInvoked := true }

/-! ### Resource utilization advisor (`optimize_resource_utilization`,
lines 271-349, and `_get_resource_utilization_data`, lines 463-512) -/

/-- One entry of `utilization_data['lines']` (lines 485-490). -/
structure LineUtil where
  line_id : Nat
  line_name : String
  current_efficiency : ℚ
  target_efficiency : ℚ
  deriving Repr, DecidableEq

/-- One entry of `utilization_data['inventory']` (lines 502-507). -/
structure ItemUtil where
  item_id : Nat
  part_number : String
  current_stock : Int
  turnover_rate : Int
  deriving Repr, DecidableEq

/-- A recommendation produced by `optimize_resource_utilization`; the
constructor is the `type` field, the arguments are the data fields
(lines 293-305 and 312-323; the fixed `recommended_actions` string lists are
constants and are omitted). -/
inductive Recommendation where
  | efficiencyImprovement (line_id : Nat) (line_name : String)
      (current_efficiency target_efficiency improvement_potential : ℚ)
  | inventoryOptimization (item_id : Nat) (part_number : String)
      (current_stock : Int) (turnover_rate : Int)
  deriving Repr, DecidableEq

/-- `rec['type'] == 'inventory_optimization'`. -/
def Recommendation.isInventoryOptimization : Recommendation → Bool
  | .inventoryOptimization _ _ _ _ => true
  | _ => false

/-- The recommendation pass of `optimize_resource_utilization`
(lines 285-323): the two loops append into one list, line-efficiency
recommendations first (`current_efficiency < target_efficiency * 0.9`,
line 292), inventory recommendations second (`turnover_rate < 4`,
line 311). -/
def utilizationRecommendations (lineData : List LineUtil)
    (itemData : List ItemUtil) : List Recommendation :=
  (lineData.filterMap (fun l =>
    if l.current_efficiency < l.target_efficiency * (9 / 10) then
      some (.efficiencyImprovement l.line_id l.line_name l.current_efficiency
        l.target_efficiency (l.target_efficiency - l.current_efficiency))
    else none))
  ++ (itemData.filterMap (fun it =>
    if it.turnover_rate < 4 then
      some (.inventoryOptimization it.item_id it.part_number it.current_stock
        it.turnover_rate)
    else none))

/-- An active `InventoryItem` row as read by
`_get_resource_utilization_data` (lines 493-498). -/
structure InvItemRow where
  id : Nat
  part_number : String
  current_stock : Int
  deriving Repr, DecidableEq

/-- The `inventory` half of `_get_resource_utilization_data`
(lines 497-507): `turnover_rate` is the hardcoded placeholder `4`
(line 500) for every item. -/
def inventoryUtilization (items : List InvItemRow) : List ItemUtil :=
  items.map (fun it =>
    { item_id := it.id
      part_number := it.part_number
      current_stock := it.current_stock
      turnover_rate := 4 })

/-- The recommendation list computed by one `optimize_resource_utilization`
call, as a function of the line-utilization data (whose efficiency fields the
code derives from recent production records) and the raw active inventory
rows (whose utilization entries always get `turnover_rate = 4`). -/
def resourceUtilizationRecommendations (lineData : List LineUtil)
    (items : List InvItemRow) : List Recommendation :=
  utilizationRecommendations lineData (inventoryUtilization items)

/-! ### Transactional apply step (`_apply_inventory_allocations`,
lines 576-600, and `_apply_production_schedule`, lines 602-626) -/

/-- A transaction-scoped database session: rows added but not yet committed
sit in `pending`; `commit` makes them durable, `rollback` discards them. -/
structure Session where
  pending : List AllocRow
  committed : List AllocRow
  deriving Repr, DecidableEq

/-- `session.add(row)`. -/
def sessionAdd (s : Session) (r : AllocRow) : Session :=
  { s with pending := s.pending ++ [r] }

/-- `session.commit()`. -/
def sessionCommit (s : Session) : Session :=
  { pending := [], committed := s.committed ++ s.pending }

/-- `session.rollback()`. -/
def sessionRollback (s : Session) : Session :=
  { s with pending := [] }

/-- `_apply_inventory_allocations` (lines 576-600): adds one row per
allocation, then commits.  A persistence failure (modelled as the commit
raising, `commitFails = true`) lands in the `except` block, which logs and
calls `session.rollback()` — and does **not** re-raise (lines 598-600).
Returns the session after the call and whether an exception propagated to
the caller. -/
def applyInventoryAllocations (s : Session)
    (results : List (Nat × List (Nat × Int))) (commitFails : Bool) :
    Session × Bool :=
  let s1 := (allocationRows results).foldl sessionAdd s
  if commitFails then (sessionRollback s1, false) else (sessionCommit s1, false)

/-- `_apply_production_schedule` (lines 602-626): same shape as
`applyInventoryAllocations`, over the schedule rows. -/
def applyProductionSchedule (s : Session) (results : List (Nat × Nat × Nat))
    (commitFails : Bool) : Session × Bool :=
  let s1 := (scheduleRows results).foldl sessionAdd s
  if commitFails then (sessionRollback s1, false) else (sessionCommit s1, false)

/-- `required_items` maps with the entries for items outside the inventory
snapshot removed.  Used to state that the code *silently drops* such
entries: the constraint set it builds is the one of this filtered data. -/
def filterReqsToInventory (inv : InventoryData) (prod : ProductionData) :
    ProductionData :=
  prod.map (fun lp =>
    (lp.1, { lp.2 with
      required_items :=
        lp.2.required_items.filter (fun rq => decide (rq.1 ∈ inv.map Prod.fst)) }))

/-! ### Concrete instances used by witnesses and counterexamples -/

/-- Inventory snapshot of the spec's concrete allocation test case:
a single item `{id=1, current_stock=100, unit_cost=10}`. -/
def invC4 : InventoryData := [(1, ⟨100, 10, 0⟩)]

/-- One production line (id 7) requiring at least 30 units of item 1. -/
def prodC4 : ProductionData := [(7, ⟨50, [(1, 30)]⟩)]

/-- The assignment allocating 30 units everywhere on the (single-cell)
variable grid. -/
def allocThirty : Alloc := fun _ _ => 30

/-- Inventory snapshot with a single active item of id 1. -/
def invC9 : InventoryData := [(1, ⟨100, 10, 0⟩)]

/-- One production line (id 7) whose requirement map demands 5 units of
item 2 — an item that is not among the active inventory items. -/
def prodC9 : ProductionData := [(7, ⟨50, [(2, 5)]⟩)]

/-- The all-zero assignment. -/
def zeroAlloc : Alloc := fun _ _ => 0

/-- A single pending job of quantity 100 and priority 1. -/
def jobsW : JobsData := [(1, ⟨100, 1⟩)]

/-- A single production line (id 4) of hourly capacity 100. -/
def linesW : LinesData := [(4, ⟨100, 10⟩)]

/-- The schedule assigning job 1 to line 4 at slot 0. -/
def schedW : Sched := fun j l s => j == 1 && l == 4 && s == 0

/-! ### General lemmas about the embedding -/

/-- The quantities kept by `_extract_allocation_results` for one item sum to
at most the item's total allocation over all lines, given the variable lower
bounds. -/
theorem sum_extract_le_totalAllocated (prod : ProductionData) (a : Alloc)
    (item : Nat) (hnn : ∀ lp ∈ prod, 0 ≤ a item lp.1) :
    ((prod.filterMap (fun lp =>
      if 0 < a item lp.1 then some (lp.1, a item lp.1) else none)).map
        Prod.snd).sum ≤ totalAllocated prod a item := by
  induction prod with
  | nil => simp [totalAllocated]
  | cons lp rest ih =>
      have h0 : 0 ≤ a item lp.1 := hnn lp (List.mem_cons_self lp rest)
      have hr := ih (fun q hq => hnn q (List.mem_cons_of_mem lp hq))
      by_cases h : 0 < a item lp.1
      · simpa [List.filterMap_cons, h, totalAllocated] using hr
      · simp only [List.filterMap_cons, h, if_false, totalAllocated,
          List.map_cons, List.sum_cons] at *
        omega

/-- C1: for every successful result of `optimize_inventory_allocation`, and
for every item of the inventory snapshot read at model-build time, the sum
over all production lines of `allocated_quantity[item][line]` in the
returned allocations is at most that item's `current_stock` in the
snapshot.  (Feasibility of the solver's assignment is the solver contract
behind a status of `LpStatusOptimal`.) -/
theorem C1_alloc_sum_le_stock (inv : InventoryData) (prod : ProductionData)
    (a : Alloc) (hfeas : feasibleAlloc inv prod a)
    (hsucc : (optimizeInventoryAllocation inv prod (.optimal a)).result.isSuccess
      = true) :
    ∀ ip ∈ inv,
      ∀ er ∈ (optimizeInventoryAllocation inv prod (.optimal a)).result.allocationsOf,
        er.1 = ip.1 → (er.2.map Prod.snd).sum ≤ ip.2.current_stock := by
  intro ip hip er her hkey
  obtain ⟨hnn, hstock, -⟩ := hfeas
  have hall : (optimizeInventoryAllocation inv prod (.optimal a)).result.allocationsOf
      = extractAllocationResults inv prod a := by
    unfold optimizeInventoryAllocation at hsucc ⊢
    cases hemp : (inv.isEmpty || prod.isEmpty) with
    | false =>
        simp only [hemp, Bool.false_eq_true, if_false]
        rfl
    | true =>
        rw [hemp] at hsucc
        simp [InvResult.isSuccess] at hsucc
  rw [hall] at her
  obtain ⟨ip', hip', hmk⟩ := List.mem_map.mp her
  have h2 : er.2 = prod.filterMap (fun lp =>
      if 0 < a ip'.1 lp.1 then some (lp.1, a ip'.1 lp.1) else none) :=
    congrArg Prod.snd hmk.symm
  have h1 : ip'.1 = ip.1 := by
    have := congrArg Prod.fst hmk
    simpa [hkey] using this.symm ▸ hkey
  calc (er.2.map Prod.snd).sum
      ≤ totalAllocated prod a ip'.1 := by
        rw [h2]
        exact sum_extract_le_totalAllocated prod a ip'.1
          (fun lp hlp => hnn ip' hip' lp hlp)
    _ = totalAllocated prod a ip.1 := by rw [h1]
    _ ≤ ip.2.current_stock := hstock ip hip

/-- Witness for C1 at the concrete single-item, single-line instance. -/
theorem C1_alloc_sum_le_stock_witness :
    feasibleAlloc invC4 prodC4 allocThirty ∧
      (([((7 : Nat), (30 : Int))].map Prod.snd).sum ≤ (100 : Int)) :=
  ⟨by decide,
    C1_alloc_sum_le_stock invC4 prodC4 allocThirty (by decide) (by decide)
      (1, ⟨100, 10, 0⟩) (by decide) (1, [(7, 30)]) (by decide) rfl⟩

/-- Looking an item up in the extracted results yields its per-line list,
whenever the item is one of the inventory keys (the per-line list depends
only on the key, so duplicate keys are harmless). -/
theorem lookup_extractAllocationResults (inv : InventoryData)
    (prod : ProductionData) (a : Alloc) (item : Nat)
    (h : item ∈ inv.map Prod.fst) :
    (extractAllocationResults inv prod a).lookup item
      = some (prod.filterMap (fun lp =>
          if 0 < a item lp.1 then some (lp.1, a item lp.1) else none)) := by
  induction inv with
  | nil => simp at h
  | cons ip rest ih =>
      by_cases he : item = ip.1
      · subst he
        simp [extractAllocationResults, List.lookup]
      · have hr : item ∈ rest.map Prod.fst := by
          rcases List.mem_map.mp h with ⟨q, hq, hqe⟩
          rcases List.mem_cons.mp hq with rfl | hq'
          · exact absurd hqe.symm he
          · exact List.mem_map.mpr ⟨q, hq', hqe⟩
        have hbeq : (item == ip.1) = false := by
          simpa using he
        simpa [extractAllocationResults, List.lookup, hbeq] using ih hr

/-- Looking a line up in one item's extracted per-line list: present with the
assigned quantity exactly when the line is a production key and the quantity
is positive. -/
theorem lookup_extract_line (prod : ProductionData) (a : Alloc)
    (item line : Nat) :
    (prod.filterMap (fun lp =>
        if 0 < a item lp.1 then some (lp.1, a item lp.1) else none)).lookup line
      = if line ∈ prod.map Prod.fst ∧ 0 < a item line then some (a item line)
        else none := by
  induction prod with
  | nil => simp
  | cons lp rest ih =>
      by_cases hk : line = lp.1
      · subst hk
        by_cases hpos : 0 < a item lp.1
        · simp [List.filterMap_cons, hpos, List.lookup]
        · simp only [List.filterMap_cons, hpos, if_false, ih]
          simp [hpos]
      · have hbeq : (line == lp.1) = false := by simpa using hk
        by_cases hpos : 0 < a item lp.1
        · simp only [List.filterMap_cons, hpos, if_true, List.lookup, hbeq]
          rw [ih]
          exact (if_congr (by simp [hk]) rfl rfl).symm
        · simp only [List.filterMap_cons, hpos, if_false, ih]
          exact (if_congr (by simp [hk]) rfl rfl).symm

/-- `results[item][line]` in the success payload is exactly the solver's
variable value, for any declared (item, line) pair with a non-negative
value. -/
theorem reportedQty_extract (inv : InventoryData) (prod : ProductionData)
    (a : Alloc) (item line : Nat) (hi : item ∈ inv.map Prod.fst)
    (hl : line ∈ prod.map Prod.fst) (hnn : 0 ≤ a item line) :
    reportedQty (extractAllocationResults inv prod a) item line = a item line := by
  unfold reportedQty
  rw [lookup_extractAllocationResults inv prod a item hi]
  simp only [Option.getD_some]
  rw [lookup_extract_line]
  by_cases hpos : 0 < a item line
  · simp [hl, hpos]
  · have h0 : a item line = 0 := le_antisymm (not_lt.mp hpos) hnn
    simp [h0]

/-- The allocation objective over a single-item, single-line grid. -/
theorem allocObjective_single (i l : Nat) (f : InventoryFact)
    (lr : LineRequirement) (a : Alloc) :
    allocObjective [(i, f)] [(l, lr)] a
      = f.unit_cost * (a i l : ℚ) + (1 / 10) * f.unit_cost * (a i l : ℚ) := by
  simp [allocObjective]

/-- On the instance whose only requirement names an item outside the
inventory, the all-zero assignment is optimal for the model the code
builds. -/
theorem zeroAlloc_optimal : isOptimalAlloc invC9 prodC9 zeroAlloc := by
  constructor
  · decide
  · intro b hb
    have hnn : (0 : Int) ≤ b 1 7 :=
      hb.1 (1, ⟨100, 10, 0⟩) (by decide) (7, ⟨50, [(2, 5)]⟩) (by decide)
    have hcast : (0 : ℚ) ≤ (b 1 7 : ℚ) := by exact_mod_cast hnn
    show allocObjective [(1, ⟨100, 10, 0⟩)] [(7, ⟨50, [(2, 5)]⟩)] zeroAlloc
      ≤ allocObjective [(1, ⟨100, 10, 0⟩)] [(7, ⟨50, [(2, 5)]⟩)] b
    rw [allocObjective_single, allocObjective_single]
    simp only [zeroAlloc]
    norm_num
    linarith

/-- On the spec's concrete instance, allocating exactly the minimum (30) is
optimal for the model the code builds. -/
theorem allocThirty_optimal : isOptimalAlloc invC4 prodC4 allocThirty := by
  constructor
  · decide
  · intro b hb
    have h30 : (30 : Int) ≤ b 1 7 :=
      hb.2.2 (7, ⟨50, [(1, 30)]⟩) (by decide) (1, 30) (by decide) (by decide)
    have hcast : (30 : ℚ) ≤ (b 1 7 : ℚ) := by exact_mod_cast h30
    show allocObjective [(1, ⟨100, 10, 0⟩)] [(7, ⟨50, [(1, 30)]⟩)] allocThirty
      ≤ allocObjective [(1, ⟨100, 10, 0⟩)] [(7, ⟨50, [(1, 30)]⟩)] b
    rw [allocObjective_single, allocObjective_single]
    simp only [allocThirty]
    norm_num
    linarith


/-- C2 counterexample: on the concrete instance where the single production
line requires 5 units of item 2 but item 2 is not an active inventory item,
the all-zero assignment is genuinely optimal for the model the code builds,
the call reports success, and the returned allocation of item 2 to line 7 is
0, strictly below the defined minimum requirement of 5. -/
theorem C2_counterexample :
    isOptimalAlloc invC9 prodC9 zeroAlloc ∧
      (optimizeInventoryAllocation invC9 prodC9 (.optimal zeroAlloc)).result.isSuccess
        = true ∧
      ((7, ⟨50, [(2, 5)]⟩) : Nat × LineRequirement) ∈ prodC9 ∧
      reportedQty
        ((optimizeInventoryAllocation invC9 prodC9
          (.optimal zeroAlloc)).result.allocationsOf) 2 7 < 5 :=
  ⟨zeroAlloc_optimal, by decide, by decide, by decide⟩

/-- C2 (amended): for every successful result of
`optimize_inventory_allocation`, and for every pair (line, item) for which
the production-requirements snapshot defines a minimum required quantity
**and whose item is among the active inventory items**, the allocated
quantity of that item to that line is at least that minimum.  (Requirement
entries whose item is not in the inventory snapshot are not enforced.) -/
theorem C2_amended_min_requirements (inv : InventoryData)
    (prod : ProductionData) (a : Alloc) (hfeas : feasibleAlloc inv prod a) :
    ∀ lp ∈ prod, ∀ rq ∈ lp.2.required_items, rq.1 ∈ inv.map Prod.fst →
      rq.2 ≤ reportedQty (extractAllocationResults inv prod a) rq.1 lp.1 := by
  intro lp hlp rq hrq hin
  obtain ⟨hnn, -, hmin⟩ := hfeas
  have hge := hmin lp hlp rq hrq hin
  obtain ⟨ip, hip, hfst⟩ := List.mem_map.mp hin
  have h0 : 0 ≤ a rq.1 lp.1 := by
    have := hnn ip hip lp hlp
    rwa [hfst] at this
  rw [reportedQty_extract inv prod a rq.1 lp.1 hin
    (List.mem_map_of_mem Prod.fst hlp) h0]
  exact hge

/-- Witness for the amended C2 at the concrete single-item instance. -/
theorem C2_amended_min_requirements_witness :
    feasibleAlloc invC4 prodC4 allocThirty ∧
      (30 : Int) ≤ reportedQty (extractAllocationResults invC4 prodC4 allocThirty) 1 7 :=
  ⟨by decide,
    C2_amended_min_requirements invC4 prodC4 allocThirty (by decide)
      (7, ⟨50, [(1, 30)]⟩) (by decide) (1, 30) (by decide) (by decide)⟩

/-- C4: on the instance with the single inventory item
`{id=1, current_stock=100, unit_cost=10}` and one production line requiring
at least 30 units of item 1, every optimal solution of the inventory
allocation model allocates exactly 30 units of item 1 to that line, both as
the solver variable's value and in the extracted result payload. -/
theorem C4_minimal_feasible_allocation (a : Alloc)
    (hopt : isOptimalAlloc invC4 prodC4 a) :
    a 1 7 = 30 ∧
      reportedQty (extractAllocationResults invC4 prodC4 a) 1 7 = 30 := by
  obtain ⟨hfeas, hmin⟩ := hopt
  have h30 : (30 : Int) ≤ a 1 7 :=
    hfeas.2.2 (7, ⟨50, [(1, 30)]⟩) (by decide) (1, 30) (by decide) (by decide)
  have hle := hmin allocThirty (by decide)
  have hobj : allocObjective invC4 prodC4 a
      = 10 * (a 1 7 : ℚ) + (1 / 10) * 10 * (a 1 7 : ℚ) := by
    show allocObjective [(1, ⟨100, 10, 0⟩)] [(7, ⟨50, [(1, 30)]⟩)] a = _
    rw [allocObjective_single]
  have hobj30 : allocObjective invC4 prodC4 allocThirty = 330 := by
    show allocObjective [(1, ⟨100, 10, 0⟩)] [(7, ⟨50, [(1, 30)]⟩)] allocThirty = 330
    rw [allocObjective_single]
    norm_num [allocThirty]
  rw [hobj30, hobj] at hle
  have hle30 : a 1 7 ≤ 30 := by
    have hcast : (a 1 7 : ℚ) ≤ 30 := by linarith
    exact_mod_cast hcast
  have heq : a 1 7 = 30 := le_antisymm hle30 h30
  refine ⟨heq, ?_⟩
  rw [reportedQty_extract invC4 prodC4 a 1 7 (by decide) (by decide)
    (le_trans (by norm_num) h30)]
  exact heq

/-- Witness for C4: the constant-30 assignment is optimal and allocates 30. -/
theorem C4_minimal_feasible_allocation_witness :
    isOptimalAlloc invC4 prodC4 allocThirty ∧
      (allocThirty 1 7 = 30 ∧
        reportedQty (extractAllocationResults invC4 prodC4 allocThirty) 1 7 = 30) :=
  ⟨allocThirty_optimal,
    C4_minimal_feasible_allocation allocThirty allocThirty_optimal⟩


/-- Filtering the requirement maps down to inventory items preserves the
per-item totals (it only touches `required_items`, never the line keys). -/
theorem totalAllocated_filterReqs (inv : InventoryData) (prod : ProductionData)
    (a : Alloc) (item : Nat) :
    totalAllocated (filterReqsToInventory inv prod) a item
      = totalAllocated prod a item := by
  unfold totalAllocated filterReqsToInventory
  rw [List.map_map]
  rfl

/-- The image of a production entry under the requirement-filtering map. -/
theorem mem_filterReqsToInventory (inv : InventoryData) (prod : ProductionData)
    (lp : Nat × LineRequirement) (hlp : lp ∈ prod) :
    ((lp.1, ⟨lp.2.capacity_per_hour,
        lp.2.required_items.filter (fun rq => decide (rq.1 ∈ inv.map Prod.fst))⟩)
      : Nat × LineRequirement) ∈ filterReqsToInventory inv prod :=
  List.mem_map_of_mem _ hlp

/-- C9: a minimum-requirement entry for an item that is not among the active
inventory items is silently dropped.  First conjunct: the constraint set the
code builds is exactly the constraint set of the data with such entries
removed, for every input.  Remaining conjuncts: on the concrete instance
whose only requirement demands 5 units of the absent item 2, the all-zero
assignment is optimal, the call reports success (no error), and the returned
allocation leaves the requirement uncovered (0 of item 2 on line 7). -/
theorem C9_foreign_requirement_dropped :
    (∀ (inv : InventoryData) (prod : ProductionData) (a : Alloc),
      feasibleAlloc inv prod a ↔ feasibleAlloc inv (filterReqsToInventory inv prod) a) ∧
    isOptimalAlloc invC9 prodC9 zeroAlloc ∧
    (optimizeInventoryAllocation invC9 prodC9 (.optimal zeroAlloc)).result.isSuccess
      = true ∧
    reportedQty
      ((optimizeInventoryAllocation invC9 prodC9
        (.optimal zeroAlloc)).result.allocationsOf) 2 7 = 0 := by
  refine ⟨?_, zeroAlloc_optimal, by decide, by decide⟩
  intro inv prod a
  constructor
  · rintro ⟨hnn, hst, hmin⟩
    refine ⟨?_, ?_, ?_⟩
    · intro ip hip lp hlp
      obtain ⟨lq, hlq, rfl⟩ := List.mem_map.mp hlp
      exact hnn ip hip lq hlq
    · intro ip hip
      rw [totalAllocated_filterReqs]
      exact hst ip hip
    · intro lp hlp rq hrq hin
      obtain ⟨lq, hlq, rfl⟩ := List.mem_map.mp hlp
      have hrq' : rq ∈ lq.2.required_items :=
        List.mem_of_mem_filter hrq
      exact hmin lq hlq rq hrq' hin
  · rintro ⟨hnn, hst, hmin⟩
    refine ⟨?_, ?_, ?_⟩
    · intro ip hip lp hlp
      exact hnn ip hip
        (lp.1, ⟨lp.2.capacity_per_hour,
          lp.2.required_items.filter (fun rq => decide (rq.1 ∈ inv.map Prod.fst))⟩)
        (mem_filterReqsToInventory inv prod lp hlp)
    · intro ip hip
      have := hst ip hip
      rwa [totalAllocated_filterReqs] at this
    · intro lp hlp rq hrq hin
      have hrqf : rq ∈ lp.2.required_items.filter
          (fun r => decide (r.1 ∈ inv.map Prod.fst)) :=
        List.mem_filter.mpr ⟨hrq, by simpa using hin⟩
      exact hmin _ (mem_filterReqsToInventory inv prod lp hlp) rq hrqf hin


/-- C5 counterexample: on a concrete instance with non-empty data, a
non-optimal solve returns `failed(no_optimal_solution)` but writes **no**
`OptimizationRun` record at all — in particular none with `status=FAILED` —
so the claim that a FAILED run record is still produced is false. -/
theorem C5_counterexample :
    (optimizeInventoryAllocation invC9 prodC9 .notOptimal).result
        = .failed "no_optimal_solution" ∧
      (optimizeInventoryAllocation invC9 prodC9 .notOptimal).savedRuns = [] ∧
      ¬ ∃ r ∈ (optimizeInventoryAllocation invC9 prodC9 .notOptimal).savedRuns,
          r.status = "FAILED" := by
  refine ⟨by decide, by decide, ?_⟩
  rintro ⟨r, hr, -⟩
  have h : (optimizeInventoryAllocation invC9 prodC9 .notOptimal).savedRuns = [] := by
    decide
  rw [h] at hr
  exact absurd hr (List.not_mem_nil r)

/-- C5 (amended): whenever a solve of the inventory allocation or production
schedule model fails to reach optimality, the call returns
`failed(no_optimal_solution)` and writes no `OptimizationRun` record and no
decision rows (run records are written only on optimal solves, always with
`status=COMPLETED`). -/
theorem C5_amended_failed_solve_writes_nothing (inv : InventoryData)
    (prod : ProductionData) (lines : LinesData) (jobs : JobsData)
    (h1 : inv.isEmpty = false) (h2 : prod.isEmpty = false)
    (h3 : lines.isEmpty = false) (h4 : jobs.isEmpty = false) :
    ((optimizeInventoryAllocation inv prod .notOptimal).result
        = .failed "no_optimal_solution" ∧
      (optimizeInventoryAllocation inv prod .notOptimal).savedRuns = [] ∧
      (optimizeInventoryAllocation inv prod .notOptimal).savedAllocations = []) ∧
    ((optimizeProductionSchedule lines jobs .notOptimal).result
        = .failed "no_optimal_solution" ∧
      (optimizeProductionSchedule lines jobs .notOptimal).savedRuns = [] ∧
      (optimizeProductionSchedule lines jobs .notOptimal).savedAllocations = []) := by
  unfold optimizeInventoryAllocation optimizeProductionSchedule
  rw [h1, h2, h3, h4]
  simp

/-- Witness for the amended C5 at concrete non-empty data. -/
theorem C5_amended_failed_solve_writes_nothing_witness :
    invC9.isEmpty = false ∧
      (((optimizeInventoryAllocation invC9 prodC9 .notOptimal).result
          = .failed "no_optimal_solution" ∧
        (optimizeInventoryAllocation invC9 prodC9 .notOptimal).savedRuns = [] ∧
        (optimizeInventoryAllocation invC9 prodC9 .notOptimal).savedAllocations = []) ∧
      ((optimizeProductionSchedule linesW jobsW .notOptimal).result
          = .failed "no_optimal_solution" ∧
        (optimizeProductionSchedule linesW jobsW .notOptimal).savedRuns = [] ∧
        (optimizeProductionSchedule linesW jobsW .notOptimal).savedAllocations = [])) :=
  ⟨rfl, C5_amended_failed_solve_writes_nothing invC9 prodC9 linesW jobsW
    rfl rfl rfl rfl⟩

/-- C6: with zero active inventory items (or no production-requirement
data), `optimize_inventory_allocation` returns
`failed(insufficient_data)`, never reaches the solver, and writes no
`OptimizationRun` and no `ResourceAllocation` rows — whatever the solver
would have answered. -/
theorem C6_insufficient_data_short_circuit (inv : InventoryData)
    (prod : ProductionData) (h : inv = [] ∨ prod = [])
    (solve : SolveOutcome Alloc) :
    optimizeInventoryAllocation inv prod solve
      = { result := .failed "insufficient_data", savedRuns := [],
          savedAllocations := [], solverInvoked := false } := by
  unfold optimizeInventoryAllocation
  rcases h with rfl | rfl
  · simp
  · simp

/-- Witness for C6 with an empty inventory snapshot. -/
theorem C6_insufficient_data_short_circuit_witness :
    (([] : InventoryData) = [] ∨ prodC9 = []) ∧
      optimizeInventoryAllocation [] prodC9 .notOptimal
        = { result := .failed "insufficient_data", savedRuns := [],
            savedAllocations := [], solverInvoked := false } :=
  ⟨Or.inl rfl,
    C6_insufficient_data_short_circuit [] prodC9 (Or.inl rfl) .notOptimal⟩

/-- Adding rows to a session leaves its committed rows untouched. -/
theorem foldl_sessionAdd_committed (rows : List AllocRow) (s : Session) :
    (rows.foldl sessionAdd s).committed = s.committed := by
  induction rows generalizing s with
  | nil => rfl
  | cons r rest ih => simpa [sessionAdd] using ih (sessionAdd s r)

/-- C7 counterexample: when the apply step's commit raises, the helper
catches the exception, rolls back, and returns normally — the exception is
**not** re-raised to the caller (second component `false`), refuting the
re-raise half of the claim. -/
theorem C7_counterexample :
    (applyInventoryAllocations { pending := [], committed := [] }
        [(1, [(7, 30)])] true).2 = false ∧
      (applyInventoryAllocations { pending := [], committed := [] }
        [(1, [(7, 30)])] true).1
        = { pending := [], committed := [] } := by
  constructor
  · rfl
  · decide

/-- C7 (amended): if an exception occurs while applying an optimization's
results, the transaction is rolled back entirely — no partial writes of that
optimization's decision rows survive and the pending rows are discarded —
but the exception is caught and logged inside the apply helper, **not**
re-raised to the caller. -/
theorem C7_amended_rollback_but_swallowed (s : Session)
    (results : List (Nat × List (Nat × Int))) (sched : List (Nat × Nat × Nat)) :
    ((applyInventoryAllocations s results true).1.committed = s.committed ∧
      (applyInventoryAllocations s results true).1.pending = [] ∧
      (applyInventoryAllocations s results true).2 = false) ∧
    ((applyProductionSchedule s sched true).1.committed = s.committed ∧
      (applyProductionSchedule s sched true).1.pending = [] ∧
      (applyProductionSchedule s sched true).2 = false) := by
  unfold applyInventoryAllocations applyProductionSchedule sessionRollback
  simp [foldl_sessionAdd_committed]


/-- C8: in a resource-utilization pass, an `efficiency_improvement`
recommendation for a line is emitted exactly when its `current_efficiency`
is strictly below `0.9 × target_efficiency`; concretely, a line with
efficiencies `50 / 90` yields exactly one such recommendation (`50 < 81`)
while a line with `85 / 90` yields none (`85 ≥ 81`). -/
theorem C8_efficiency_threshold :
    (∀ (lineData : List LineUtil) (itemData : List ItemUtil) (l : LineUtil),
      l ∈ lineData →
        (Recommendation.efficiencyImprovement l.line_id l.line_name
            l.current_efficiency l.target_efficiency
            (l.target_efficiency - l.current_efficiency)
          ∈ utilizationRecommendations lineData itemData
        ↔ l.current_efficiency < l.target_efficiency * (9 / 10))) ∧
    utilizationRecommendations
        [⟨1, "A", 50, 90⟩, ⟨2, "B", 85, 90⟩] []
      = [.efficiencyImprovement 1 "A" 50 90 40] := by
  constructor
  · intro lineData itemData l hl
    constructor
    · intro hmem
      rcases List.mem_append.mp hmem with hm | hm
      · obtain ⟨u, hu, hue⟩ := List.mem_filterMap.mp hm
        by_cases hc : u.current_efficiency < u.target_efficiency * (9 / 10)
        · rw [if_pos hc] at hue
          have h := Option.some.inj hue
          injection h with e1 e2 e3 e4 e5
          rw [e3, e4] at hc
          exact hc
        · rw [if_neg hc] at hue
          exact absurd hue (by simp)
      · obtain ⟨it, hit, hie⟩ := List.mem_filterMap.mp hm
        by_cases hc : it.turnover_rate < 4
        · rw [if_pos hc] at hie
          exact absurd (Option.some.inj hie) (by simp)
        · rw [if_neg hc] at hie
          exact absurd hie (by simp)
    · intro hc
      refine List.mem_append.mpr (Or.inl ?_)
      exact List.mem_filterMap.mpr ⟨l, hl, by rw [if_pos hc]⟩
  · norm_num [utilizationRecommendations, List.filterMap_cons]

/-- Witness for C8 at the concrete two-line pass. -/
theorem C8_efficiency_threshold_witness :
    ((⟨1, "A", 50, 90⟩ : LineUtil)
        ∈ ([⟨1, "A", 50, 90⟩, ⟨2, "B", 85, 90⟩] : List LineUtil)) ∧
      (Recommendation.efficiencyImprovement 1 "A" 50 90 40
          ∈ utilizationRecommendations [⟨1, "A", 50, 90⟩, ⟨2, "B", 85, 90⟩] []
        ↔ (50 : ℚ) < 90 * (9 / 10)) := by
  refine ⟨List.mem_cons_self _ _, ?_⟩
  have h := C8_efficiency_threshold.1
    [⟨1, "A", 50, 90⟩, ⟨2, "B", 85, 90⟩] [] ⟨1, "A", 50, 90⟩
    (List.mem_cons_self _ _)
  norm_num at h ⊢
  exact h

/-- C10: `optimize_resource_utilization` never emits an
`inventory_optimization` recommendation, for any input: the utilization data
builder hardcodes every item's `turnover_rate` to 4, and the recommendation
fires only for `turnover_rate < 4`. -/
theorem C10_no_inventory_optimization_rec (lineData : List LineUtil)
    (items : List InvItemRow) :
    (resourceUtilizationRecommendations lineData items).filter
      (fun r => r.isInventoryOptimization) = [] := by
  unfold resourceUtilizationRecommendations utilizationRecommendations
    inventoryUtilization
  rw [List.filter_append]
  have ha : (lineData.filterMap (fun l =>
      if l.current_efficiency < l.target_efficiency * (9 / 10) then
        some (Recommendation.efficiencyImprovement l.line_id l.line_name
          l.current_efficiency l.target_efficiency
          (l.target_efficiency - l.current_efficiency))
      else none)).filter (fun r => r.isInventoryOptimization) = [] := by
    induction lineData with
    | nil => rfl
    | cons l rest ih =>
        by_cases hc : l.current_efficiency < l.target_efficiency * (9 / 10)
        · simpa [List.filterMap_cons, hc, List.filter_cons,
            Recommendation.isInventoryOptimization] using ih
        · simpa [List.filterMap_cons, hc] using ih
  have hb : ((items.map (fun it =>
      ({ item_id := it.id, part_number := it.part_number,
         current_stock := it.current_stock, turnover_rate := 4 } : ItemUtil))).filterMap
        (fun it => if it.turnover_rate < 4 then
          some (Recommendation.inventoryOptimization it.item_id it.part_number
            it.current_stock it.turnover_rate)
        else none)).filter (fun r => r.isInventoryOptimization) = [] := by
    induction items with
    | nil => rfl
    | cons it rest ih =>
        simp [List.filterMap_cons]
  rw [ha, hb]
  rfl


/-- A sum of 0/1 indicators counts the matching elements. -/
theorem sum_boolVal_eq_length_filter {α : Type} (l : List α) (p : α → Bool) :
    (l.map (fun v => boolVal (p v))).sum = (((l.filter p).length : Nat) : Int) := by
  induction l with
  | nil => simp
  | cons v rest ih =>
      simp only [List.map_cons, List.sum_cons, ih, List.filter_cons]
      cases h : p v
      · simp [boolVal, h]
      · simp only [boolVal, h, if_true, List.length_cons]
        push_cast
        omega

/-- The length of `assignedPairs` equals the constraint-1 indicator sum. -/
theorem length_assignedPairs_eq_sum (lines : LinesData) (x : Sched) (j : Nat) :
    (((assignedPairs lines x j).length : Nat) : Int)
      = (lines.flatMap (fun lp =>
          timeSlots.map (fun s => boolVal (x j lp.1 s)))).sum := by
  induction lines with
  | nil => simp [assignedPairs]
  | cons lp rest ih =>
      have h1 := sum_boolVal_eq_length_filter timeSlots (fun s => x j lp.1 s)
      simp only [assignedPairs, List.flatMap_cons, List.sum_append,
        List.length_append, List.length_map] at *
      push_cast at ih h1 ⊢
      omega

/-- Any value the schedule-extraction fold returns is a genuinely assigned
(line, slot) pair, provided the accumulator already satisfies this. -/
theorem extract_foldl_assigned (x : Sched) (j : Nat) (ls : LinesData) :
    ∀ (acc : Option (Nat × Nat)),
      (∀ pr, acc = some pr → x j pr.1 pr.2 = true) →
      ∀ pr, (ls.foldl (fun acc lp =>
          match firstHitSlot x j lp.1 with
          | some s => some (lp.1, s)
          | none => acc) acc) = some pr → x j pr.1 pr.2 = true := by
  induction ls with
  | nil => exact fun acc hacc => hacc
  | cons lq rest ih =>
      intro acc hacc pr hpr
      rw [List.foldl_cons] at hpr
      refine ih _ ?_ pr hpr
      intro pr' hpr'
      cases hfind : firstHitSlot x j lq.1 with
      | none =>
          rw [hfind] at hpr'
          exact hacc pr' hpr'
      | some sl =>
          rw [hfind] at hpr'
          have hpair := Option.some.inj hpr'
          have hp : x j lq.1 sl = true :=
            List.find?_some (by simpa [firstHitSlot] using hfind)
          rw [← hpair]
          exact hp

/-- The schedule-extraction fold stays `some` once the accumulator is. -/
theorem extract_foldl_isSome_of_acc (x : Sched) (j : Nat) (ls : LinesData) :
    ∀ (acc : Option (Nat × Nat)), acc.isSome = true →
      (ls.foldl (fun acc lp =>
          match firstHitSlot x j lp.1 with
          | some s => some (lp.1, s)
          | none => acc) acc).isSome = true := by
  induction ls with
  | nil => exact fun acc hacc => hacc
  | cons lq rest ih =>
      intro acc hacc
      rw [List.foldl_cons]
      refine ih _ ?_
      cases hfind : firstHitSlot x j lq.1 with
      | none => simpa [hfind] using hacc
      | some sl => simp [hfind]

/-- `_extract_schedule_results` finds an entry for a job as soon as some
line of the data carries a hit for it. -/
theorem extractJobAssignment_isSome (x : Sched) (j : Nat) (ls : LinesData) :
    ∀ (acc : Option (Nat × Nat)) (lp : Nat × LineFact), lp ∈ ls →
      (firstHitSlot x j lp.1).isSome = true →
      (ls.foldl (fun acc lp =>
          match firstHitSlot x j lp.1 with
          | some s => some (lp.1, s)
          | none => acc) acc).isSome = true := by
  induction ls with
  | nil => intro acc lp hlp; cases hlp
  | cons lq rest ih =>
      intro acc lp hlp hhit
      rw [List.foldl_cons]
      rcases List.mem_cons.mp hlp with rfl | hmem
      · obtain ⟨sl, hs⟩ := Option.isSome_iff_exists.mp hhit
        exact extract_foldl_isSome_of_acc x j rest _ (by simp [hs])
      · exact ih _ lp hmem hhit

/-- The quantity-weighted indicator sum of constraint 3 equals the total
quantity of the jobs assigned to the slot. -/
theorem sum_qty_filter_eq (jobs : JobsData) (p : Nat × JobFact → Bool) :
    (jobs.map (fun jp => jp.2.quantity * boolVal (p jp))).sum
      = ((jobs.filter p).map (fun jp => jp.2.quantity)).sum := by
  induction jobs with
  | nil => rfl
  | cons jp rest ih =>
      simp only [List.map_cons, List.sum_cons, ih, List.filter_cons]
      cases h : p jp
      · simp [boolVal, h]
      · simp [boolVal, h]

/-- C3: for every successful result of `optimize_production_schedule`
(feasibility of the solver assignment being the contract behind
`LpStatusOptimal`): every pending job is assigned to exactly one
(line, slot) pair of the declared grid and receives an entry in the
extracted schedule; every extracted entry is a genuine assignment; at most
one job sits on any (line, slot); and per (line, slot) the total quantity
of assigned jobs is at most the line's `capacity_per_hour`. -/
theorem C3_schedule_feasibility (jobs : JobsData) (lines : LinesData)
    (x : Sched) (hfeas : feasibleSched jobs lines x)
    (hsucc : (optimizeProductionSchedule lines jobs (.optimal x)).result.isSuccess
      = true) :
    (∀ jp ∈ jobs, (assignedPairs lines x jp.1).length = 1) ∧
    (∀ jp ∈ jobs, ∃ e ∈ (optimizeProductionSchedule lines jobs
        (.optimal x)).result.scheduleOf, e.1 = jp.1) ∧
    (∀ e ∈ (optimizeProductionSchedule lines jobs (.optimal x)).result.scheduleOf,
      x e.1 e.2.1 e.2.2 = true) ∧
    (∀ lp ∈ lines, ∀ s ∈ timeSlots,
      (jobs.filter (fun jp => x jp.1 lp.1 s)).length ≤ 1) ∧
    (∀ lp ∈ lines, ∀ s ∈ timeSlots,
      ((jobs.filter (fun jp => x jp.1 lp.1 s)).map (fun jp => jp.2.quantity)).sum
        ≤ lp.2.capacity_per_hour) := by
  have hall : (optimizeProductionSchedule lines jobs (.optimal x)).result.scheduleOf
      = extractScheduleResults jobs lines x := by
    unfold optimizeProductionSchedule at hsucc ⊢
    cases hemp : (lines.isEmpty || jobs.isEmpty) with
    | false =>
        simp only [hemp, Bool.false_eq_true, if_false]
        rfl
    | true =>
        rw [hemp] at hsucc
        simp [SchedResult.isSuccess] at hsucc
  rw [hall]
  obtain ⟨h1, h2, h3⟩ := hfeas
  have hlen : ∀ jp ∈ jobs, (assignedPairs lines x jp.1).length = 1 := by
    intro jp hjp
    have hsum := h1 jp hjp
    have hl := length_assignedPairs_eq_sum lines x jp.1
    rw [hsum] at hl
    exact_mod_cast hl
  refine ⟨hlen, ?_, ?_, ?_, ?_⟩
  · intro jp hjp
    obtain ⟨pr0, hpr0⟩ := List.length_eq_one.mp (hlen jp hjp)
    have hmem : pr0 ∈ assignedPairs lines x jp.1 := by
      rw [hpr0]
      exact List.mem_singleton.mpr rfl
    obtain ⟨lp, hlp, hmem2⟩ := List.mem_flatMap.mp hmem
    obtain ⟨sl, hsl, hpre⟩ := List.mem_map.mp hmem2
    have hslf := List.mem_filter.mp hsl
    have hhit : (firstHitSlot x jp.1 lp.1).isSome = true := by
      unfold firstHitSlot
      rw [List.find?_isSome]
      exact ⟨sl, hslf.1, hslf.2⟩
    have hsome : (extractJobAssignment lines x jp.1).isSome = true :=
      extractJobAssignment_isSome x jp.1 lines none lp hlp hhit
    obtain ⟨pr, hpr⟩ := Option.isSome_iff_exists.mp hsome
    refine ⟨(jp.1, pr.1, pr.2), ?_, rfl⟩
    refine List.mem_filterMap.mpr ⟨jp, hjp, ?_⟩
    rw [hpr]
    rfl
  · intro e he
    obtain ⟨jp, hjp, hfe⟩ := List.mem_filterMap.mp he
    obtain ⟨pr, hpr, hge⟩ := Option.map_eq_some'.mp hfe
    have hx : x jp.1 pr.1 pr.2 = true :=
      extract_foldl_assigned x jp.1 lines none
        (fun pr' h => Option.noConfusion h) pr hpr
    rw [← hge]
    exact hx
  · intro lp hlp s hs
    have := h2 lp hlp s hs
    rw [sum_boolVal_eq_length_filter] at this
    exact_mod_cast this
  · intro lp hlp s hs
    have := h3 lp hlp s hs
    rwa [sum_qty_filter_eq] at this

/-- Witness for C3 at a concrete one-job, one-line schedule. -/
theorem C3_schedule_feasibility_witness :
    feasibleSched jobsW linesW schedW ∧
      (assignedPairs linesW schedW 1).length = 1 :=
  ⟨by decide,
    (C3_schedule_feasibility jobsW linesW schedW (by decide) (by decide)).1
      (1, ⟨100, 1⟩) (by decide)⟩

end ResourceAllocator
